import Mathlib

namespace Supervisor

/-!
Verification development for the human-in-the-loop AI supervisor system.

This file gives a shallow embedding, in Lean, of the core logic of the
repository: the help-request state machine (`modules/help_requests.py`),
the knowledge store and vector-index lifecycle (`modules/knowledge_base.py`),
the timeout sweep, the hybrid knowledge query and the check-request API
(`app.py`), and the durable callback registry with webhook delivery
(`persistent_callbacks.py`, `modules/agent.py`).

Modelling conventions:
- Database tables are lists of records kept in primary-key (id) order, the
  order in which SQLAlchemy returns rows for the queries the code issues.
- Timestamps are integers (minutes); `datetime.utcnow()` becomes an explicit
  `now` parameter.
- Calls into external systems that can raise (the embedding model, FAISS
  persistence, the SQLAlchemy commit, the LiveKit `generate_reply`) are
  modelled by explicit Boolean/enumerated failure parameters: each value of
  the parameter corresponds to one of the executions the Python code can
  take (success, or the `except` branch).
- The FAISS index itself stores opaque float vectors; only its vector count
  (`ntotal`) is observable to the logic under verification, so the index is
  modelled by that count.  The raw (position, distance) output of
  `faiss_index.search` is likewise an abstract input parameter.
-/

/-- A help-request row (`database.py`, class `HelpRequest`).  `status` is one
of "pending", "resolved", "unresolved"; `answer` and `resolved_at` are
nullable columns.  The code also reads/writes a `webhook_url` attribute on
these objects, so it is included. -/
structure HelpReq where
  id : Nat
  customer_id : String
  question : String
  status : String
  answer : Option String
  created_at : Int
  resolved_at : Option Int
  webhook_url : Option String
deriving DecidableEq

/-- A knowledge-base row (`database.py`, class `KnowledgeItem`). -/
structure KItem where
  id : Nat
  question : String
  answer : String
  created_at : Int
  updated_at : Int
deriving DecidableEq

/-- The persistent state the supervisor process owns: the `help_requests`
and `knowledge_base` tables, each as a list of rows in id order. -/
structure Store where
  requests : List HelpReq
  knowledge : List KItem
deriving DecidableEq

/-- `modules/knowledge_base.py`, `add_to_knowledge_base` (DB path, lines
239-264): look up an existing row with the same question; update its answer
in place, or insert a fresh row.  `db_fails` models the `except` branch of
the DB block: the update/insert is not committed and the function falls back
to the in-memory map, leaving the persistent store unchanged.  (The FAISS
rebuild the function then triggers is modelled separately by
`build_or_load_faiss_index`.) -/
def add_to_knowledge_base (kb : List KItem) (question answer : String)
    (now : Int) (db_fails : Bool) : List KItem :=
  if db_fails then
    kb
  else
    match kb.find? (fun it => it.question = question) with
    | some _ =>
        kb.map (fun it =>
          if it.question = question then
            { it with answer := answer, updated_at := now }
          else it)
    | none =>
        kb ++ [{ id := (kb.map (·.id)).foldr max 0 + 1, question := question,
                 answer := answer, created_at := now, updated_at := now }]

/-- `modules/help_requests.py`, `resolve_request` (DB path, lines 87-125):
fetch the request by id; if absent, fall through and return `None`
(modelled: the in-memory fallback also misses).  If present, set
`status='resolved'`, store the answer and `resolved_at`, commit, and only
then call `add_to_knowledge_base`.  There is no check of the current status:
the row is overwritten whatever state it is in.  `kb_db_fails` is the
failure parameter threaded to `add_to_knowledge_base`; the webhook POST that
may follow does not touch the store. -/
def resolve_request (st : Store) (request_id : Nat) (answer : String)
    (now : Int) (kb_db_fails : Bool) : Store × Option HelpReq :=
  match st.requests.find? (fun r => r.id = request_id) with
  | none => (st, none)
  | some req =>
      let req' : HelpReq :=
        { req with status := "resolved", answer := some answer,
                   resolved_at := some now }
      let requests' := st.requests.map (fun r => if r.id = request_id then req' else r)
      let kb' := add_to_knowledge_base st.knowledge req.question answer now kb_db_fails
      ({ requests := requests', knowledge := kb' }, some req')

/-- `modules/help_requests.py`, `mark_request_unresolved` (DB path, lines
254-271): fetch the row by id; if present set `status='unresolved'` and
commit; if absent return `None`.  As in `resolve_request`, the current
status is never inspected. -/
def mark_request_unresolved (st : Store) (request_id : Nat) :
    Store × Option HelpReq :=
  match st.requests.find? (fun r => r.id = request_id) with
  | none => (st, none)
  | some req =>
      let req' : HelpReq := { req with status := "unresolved" }
      ({ st with
          requests := st.requests.map (fun r => if r.id = request_id then req' else r) },
       some req')

/-- Sample fixture: a help request already in the terminal state "resolved". -/
def sampleResolvedReq : HelpReq :=
  { id := 1, customer_id := "c", question := "Q", status := "resolved",
    answer := some "old", created_at := 0, resolved_at := some 5,
    webhook_url := none }

/-- Sample fixture: a pending help request. -/
def samplePendingReq : HelpReq :=
  { id := 1, customer_id := "c", question := "Q", status := "pending",
    answer := none, created_at := 0, resolved_at := none,
    webhook_url := none }

/-! ### Vector index lifecycle (`modules/knowledge_base.py`) -/

/-- The FAISS flat index as observable to the code under verification: the
stored vectors are opaque floats, only the vector count `ntotal` is read. -/
structure FaissIndex where
  ntotal : Nat
deriving DecidableEq

/-- The module-level globals of `modules/knowledge_base.py`: the active
index (or `None`) and the parallel position→knowledge-item-id mapping. -/
structure IndexGlobals where
  faiss_index : Option FaissIndex
  knowledge_item_ids_for_faiss : List Nat
deriving DecidableEq

/-- Which exception, if any, is raised inside the `try` of the rebuild in
`build_or_load_faiss_index`: none, `model.encode` raising, or
`faiss.write_index` raising.  Either exception lands in the same `except`
branch (lines 157-160). -/
inductive RebuildFailure where
  | noFailure
  | embedFails
  | persistFails
deriving DecidableEq

/-- `modules/knowledge_base.py`, the rebuild part of
`build_or_load_faiss_index` (lines 98-160).  `items` is what
`_get_all_knowledge_items_for_indexing` returned: (id, question) pairs in id
order, where a question that is not a valid string is `none` (the
`isinstance(q, str)` filter).  The entry globals are overwritten on every
path: empty item list or no valid question clears them, an exception in the
`except` branch clears them, and success installs the fresh index whose
vector count is the number of *valid* questions next to the id list of
*all* items.  (The branch where creating the instance directory fails
returns with the same globals as success, the new index merely unpersisted,
so it is not distinguished here.) -/
def rebuild_faiss_index (items : List (Nat × Option String))
    (failure : RebuildFailure) : IndexGlobals :=
  if items.isEmpty then
    { faiss_index := none, knowledge_item_ids_for_faiss := [] }
  else
    let questions := items.map (·.2)
    let current_knowledge_item_ids := items.map (·.1)
    let valid_questions := questions.filterMap id
    if valid_questions.isEmpty then
      { faiss_index := none, knowledge_item_ids_for_faiss := [] }
    else
      match failure with
      | .noFailure =>
          { faiss_index := some { ntotal := valid_questions.length },
            knowledge_item_ids_for_faiss := current_knowledge_item_ids }
      | .embedFails =>
          { faiss_index := none, knowledge_item_ids_for_faiss := [] }
      | .persistFails =>
          { faiss_index := none, knowledge_item_ids_for_faiss := [] }

/-- `modules/knowledge_base.py`, `build_or_load_faiss_index` (lines 80-161).
`g` is the value of the globals at entry — note that no branch of the
function leaves it in place: every path ends by assigning them.  `disk` is
the persisted index file (`none` when absent), `load_fails` models
`faiss.read_index` raising.  A loaded index is only kept when its vector
count equals the current knowledge-item count; otherwise a full rebuild
runs. -/
def build_or_load_faiss_index (g : IndexGlobals)
    (items : List (Nat × Option String)) (disk : Option FaissIndex)
    (force_rebuild : Bool) (load_fails : Bool)
    (failure : RebuildFailure) : IndexGlobals :=
  match g with
  | _ =>
    match disk with
    | some idx =>
        if force_rebuild then rebuild_faiss_index items failure
        else if load_fails then rebuild_faiss_index items failure
        else if idx.ntotal = items.length then
          { faiss_index := some idx,
            knowledge_item_ids_for_faiss := items.map (·.1) }
        else rebuild_faiss_index items failure
    | none => rebuild_faiss_index items failure

/-- One entry of the semantic tier's result list: a knowledge-item id with
its similarity score (the dict `{"id": …, "score": …, "match_type":
"semantic"}`; the match type is the constant "semantic"). -/
structure SemMatch where
  id : Nat
  score : ℚ
deriving DecidableEq

/-- Python's stable `sorted(…, reverse=True)` as an insertion sort: an
element is placed before the first already-placed element it is
greater-or-equal to under `ge`, so elements with equal keys keep their
original relative order. -/
def orderedInsertDesc {α : Type} (ge : α → α → Bool) (a : α) :
    List α → List α
  | [] => [a]
  | b :: l => if ge a b then a :: b :: l else b :: orderedInsertDesc ge a l

/-- See `orderedInsertDesc`. -/
def insertionSortDesc {α : Type} (ge : α → α → Bool) : List α → List α
  | [] => []
  | a :: l => orderedInsertDesc ge a (insertionSortDesc ge l)

/-- `modules/knowledge_base.py`, `search_knowledge_semantic` (lines
163-198).  Fails soft to `[]` when the index is absent or empty, or when the
query embedding cannot be generated (`embed_ok = false`).  `faiss_results`
is the (position, L2-distance) list the FAISS search returned; positions of
`-1` are skipped, out-of-bounds positions are dropped with a warning, and
similarity is `1 / (1 + distance)` (0 for a negative distance).  The result
is sorted by score descending. -/
def search_knowledge_semantic (g : IndexGlobals) (embed_ok : Bool)
    (faiss_results : List (Int × ℚ)) : List SemMatch :=
  match g.faiss_index with
  | none => []
  | some idx =>
      if idx.ntotal = 0 then []
      else if ¬ embed_ok then []
      else
        insertionSortDesc (fun a b => a.score ≥ b.score)
          (faiss_results.filterMap (fun (pr : Int × ℚ) =>
            if pr.1 = -1 then none
            else if 0 ≤ pr.1 ∧ pr.1.toNat < g.knowledge_item_ids_for_faiss.length then
              some ({ id := g.knowledge_item_ids_for_faiss.getD pr.1.toNat 0,
                      score := if 0 ≤ pr.2 then 1 / (1 + pr.2) else 0 } : SemMatch)
            else none))

/-! ### Timeout sweep and check-request API (`app.py`) -/

/-- The batch `check_request_timeouts_job` selects (`app.py` lines 134-137):
all pending requests created strictly before `now - timeout_minutes`. -/
def timed_out_of (requests : List HelpReq) (now timeout_minutes : Int) :
    List HelpReq :=
  requests.filter (fun r =>
    r.status = "pending" ∧ r.created_at < now - timeout_minutes)

/-- `app.py`, `check_request_timeouts_job` (lines 122-156): select the timed
out pending requests; if none, return.  Otherwise set each to "unresolved"
and commit once at the end.  The whole loop and the commit sit in a single
`try`: `fail_at = some i` with `i` a valid index into the timed-out batch
models an exception while transitioning the `i`-th one, which lands in the
`except` branch whose `db.session.rollback()` reverts every uncommitted
status change of this invocation. -/
def check_request_timeouts_job (requests : List HelpReq)
    (now timeout_minutes : Int) (fail_at : Option Nat) : List HelpReq :=
  let timed_out := timed_out_of requests now timeout_minutes
  if timed_out.isEmpty then requests
  else
    match fail_at with
    | some i =>
        if i < timed_out.length then requests
        else
          requests.map (fun r =>
            if r.status = "pending" ∧ r.created_at < now - timeout_minutes then
              { r with status := "unresolved" }
            else r)
    | none =>
        requests.map (fun r =>
          if r.status = "pending" ∧ r.created_at < now - timeout_minutes then
            { r with status := "unresolved" }
          else r)

/-- `app.py`, route `api_check_request` (lines 344-359): look the request up
by id; unknown id → `none` (the 404 response); otherwise respond with the id,
the status, and `answer if help_request.status == 'resolved' else None`. -/
def api_check_request (requests : List HelpReq) (request_id : Nat) :
    Option (Nat × String × Option String) :=
  match requests.find? (fun r => r.id = request_id) with
  | none => none
  | some r =>
      some (r.id, r.status,
        if r.status = "resolved" then r.answer else none)

/-! ### Callback registry and webhook delivery
(`persistent_callbacks.py`, `modules/agent.py`) -/

/-- `persistent_callbacks.py`, `CallbackRegistry.register`:
`callbacks_map[str(request_id)] = session_id`.  The dict is modelled as an
insertion-ordered association list with unique keys: an existing key is
updated in place, a new key is appended. -/
def CallbackRegistry.register (m : List (String × String)) (request_id : Nat)
    (session_id : String) : List (String × String) :=
  if m.any (fun kv => kv.1 = toString request_id) then
    m.map (fun kv =>
      if kv.1 = toString request_id then (kv.1, session_id) else kv)
  else m ++ [(toString request_id, session_id)]

/-- `persistent_callbacks.py`, `CallbackRegistry.get_session_for_request`:
`callbacks_map.get(str(request_id))`. -/
def CallbackRegistry.get_session_for_request (m : List (String × String))
    (request_id : Nat) : Option String :=
  (m.find? (fun kv => kv.1 = toString request_id)).map (·.2)

/-- `persistent_callbacks.py`, `CallbackRegistry.remove`: delete the key if
present, else a no-op. -/
def CallbackRegistry.remove (m : List (String × String)) (request_id : Nat) :
    List (String × String) :=
  if m.any (fun kv => kv.1 = toString request_id) then
    m.filter (fun kv => kv.1 ≠ toString request_id)
  else m

/-- `modules/agent.py`, `_handle_resolved_webhook_http` (lines 141-186): the
deliver operation.  `answer = none` models a JSON body without an answer;
`active_sessions` are the keys of `active_livekit_sessions`;
`generate_reply_ok = false` models `generate_reply` raising, which lands in
the catch-all handler returning status 500.  The binding is removed from
the registry only after `generate_reply` has succeeded, and the handler
never retries anything itself.  Returns the new registry and the HTTP
status. -/
def handle_resolved_webhook (m : List (String × String))
    (active_sessions : List String) (request_id : Nat)
    (answer : Option String) (generate_reply_ok : Bool) :
    List (String × String) × Nat :=
  match answer with
  | none => (m, 400)
  | some ans =>
      if ans = "" then (m, 400)
      else
        match CallbackRegistry.get_session_for_request m request_id with
        | none => (m, 404)
        | some agent_id =>
            if agent_id ∈ active_sessions then
              if generate_reply_ok then
                (CallbackRegistry.remove m request_id, 200)
              else (m, 500)
            else (m, 404)

/-- The retry policy of the webhook sender (`modules/help_requests.py` lines
116-117): `Retry(total=3, …, status_forcelist=[502, 503, 504])` — only these
response statuses are retried. -/
def webhook_retryable_status (s : Nat) : Bool :=
  s = 502 || s = 503 || s = 504

/-! ### Hybrid knowledge query (`app.py`, route `api_knowledge_query`) -/

/-- SQL `LIKE` pattern matching as used by `KnowledgeItem.question.ilike
(question_text)`: `%` matches any (possibly empty) substring, `_` any single
character, and ordinary characters compare case-insensitively (SQLite's
ASCII-case-insensitive `LIKE`). First argument is the pattern, second the
candidate string. -/
def likeMatch : List Char → List Char → Bool
  | [], s => s.isEmpty
  | p :: ps, s =>
      if p = '%' then s.tails.any (fun t => likeMatch ps t)
      else
        match s with
        | [] => false
        | c :: ss => (p = '_' || p.toLower = c.toLower) && likeMatch ps ss

/-- The lower-cased character sequence of a string (Python `.lower()`). -/
def lowerChars (s : String) : List Char :=
  s.toList.map Char.toLower

/-- Python `not question_text or not question_text.strip()`: true exactly
when the string has no non-whitespace character. -/
def isBlank (s : String) : Bool :=
  s.toList.all (fun c => c.isWhitespace)

/-- Python `question.lower().split()` followed by `set(...)`: the distinct
lower-case whitespace-separated words (split drops empty chunks).  Only
cardinalities of intersections and unions of these are ever used, so a
duplicate-free list models the set. -/
def wordSet (s : String) : List (List Char) :=
  (((lowerChars s).splitOnP (fun c => c.isWhitespace)).filter
    (fun w => w ≠ [])).dedup

/-- One entry of the per-tier candidate dicts built by the query route:
`{"id", "question", "answer", "score", "match_type"}`.  The match types that
occur are the literal strings "exact_keyword", "keyword_overlap" and
"semantic". -/
structure Candidate where
  id : Nat
  question : String
  answer : String
  score : ℚ
  match_type : String
deriving DecidableEq

/-- The JSON responses of the query route, as a tagged result. -/
inductive QueryResult where
  | validationError
  | notFoundEmpty
  | found (id : Nat) (question answer : String) (score : ℚ) (match_type : String)
  | belowThreshold (best_score : ℚ) (best_match_type : String)
deriving DecidableEq

/-- The three thresholds read from the Flask config (`app.py` lines
371-374). -/
structure QueryConfig where
  semantic_score_threshold : ℚ
  keyword_score_threshold : ℚ
  final_result_threshold : ℚ
deriving DecidableEq

/-- The default thresholds: 0.70 semantic, 0.85 keyword, 0.65 final
(written as integer quotients of rationals). -/
def defaultQueryConfig : QueryConfig :=
  { semantic_score_threshold := Rat.divInt 70 100,
    keyword_score_threshold := Rat.divInt 85 100,
    final_result_threshold := Rat.divInt 65 100 }

/-- The semantic tier (`app.py` lines 376-385): keep raw semantic matches
scoring at least the semantic threshold, look each id up in the knowledge
table, and keep those that resolve, tagged "semantic". -/
def semantic_matches_details (cfg : QueryConfig) (items : List KItem)
    (raw_semantic_matches : List SemMatch) : List Candidate :=
  raw_semantic_matches.filterMap (fun m =>
    if cfg.semantic_score_threshold ≤ m.score then
      (items.find? (fun it => it.id = m.id)).map (fun it =>
        { id := it.id, question := it.question, answer := it.answer,
          score := m.score, match_type := "semantic" })
    else none)

/-- The keyword tier (`app.py` lines 387-410): if some stored question
matches the query text under case-insensitive `LIKE`, the single candidate
is that first matching item with score 1.0 tagged "exact_keyword";
otherwise every item whose word set overlaps the query's words with Jaccard
score at least the keyword threshold is kept, tagged "keyword_overlap", and
the list is stably sorted by score descending. -/
def keyword_matches_details (cfg : QueryConfig) (items : List KItem)
    (question_text : String) : List Candidate :=
  match items.find? (fun it => likeMatch question_text.toList it.question.toList) with
  | some it =>
      [{ id := it.id, question := it.question, answer := it.answer,
         score := 1, match_type := "exact_keyword" }]
  | none =>
      insertionSortDesc (fun a b => b.score ≤ a.score)
        (items.filterMap (fun it =>
          let query_words_lower := wordSet question_text
          let item_words_lower := wordSet it.question
          if item_words_lower.isEmpty then none
          else
            let inter := query_words_lower.filter (fun w => w ∈ item_words_lower)
            let union_len :=
              (query_words_lower
                ++ item_words_lower.filter (fun w => w ∉ query_words_lower)).length
            let overlap_score : ℚ :=
              if 0 < union_len then Rat.divInt inter.length union_len else 0
            if cfg.keyword_score_threshold ≤ overlap_score then
              some { id := it.id, question := it.question, answer := it.answer,
                     score := overlap_score, match_type := "keyword_overlap" }
            else none))

/-- The merge step (`app.py` lines 412-422): insert a candidate into the
id-keyed dict.  A fresh id is appended; on collision an "exact_keyword"
candidate always replaces the stored one, otherwise the higher score wins
unless the stored one is "exact_keyword" — and the entry keeps its original
dict position. -/
def mergeInsert (acc : List (Nat × Candidate)) (res : Candidate) :
    List (Nat × Candidate) :=
  if acc.any (fun kv => kv.1 = res.id) then
    acc.map (fun kv =>
      if kv.1 = res.id then
        (kv.1,
          if res.match_type = "exact_keyword" then res
          else if kv.2.match_type ≠ "exact_keyword" ∧ kv.2.score < res.score then res
          else kv.2)
      else kv)
  else acc ++ [(res.id, res)]

/-- The dict of merged candidates (`app.py` lines 412-422): keyword-tier
candidates inserted first, then semantic-tier ones. -/
def final_candidates (keyword_tier semantic_tier : List Candidate) :
    List (Nat × Candidate) :=
  (keyword_tier ++ semantic_tier).foldl mergeInsert []

/-- The ranking key comparison (`app.py` lines 427-431): candidates sort by
the pair (is-exact, score) descending; `rank_key_ge a b` says `a` may come
before `b` in the stable descending sort. -/
def rank_key_ge (a b : Candidate) : Bool :=
  let ea : Nat := if a.match_type = "exact_keyword" then 1 else 0
  let eb : Nat := if b.match_type = "exact_keyword" then 1 else 0
  (eb < ea) || (ea = eb && b.score ≤ a.score)

/-- The ranked merged candidates (`app.py` lines 427-431). -/
def ranked_results (candidates : List (Nat × Candidate)) : List Candidate :=
  insertionSortDesc rank_key_ge (candidates.map (·.2))

/-- `app.py`, route `api_knowledge_query` (lines 362-450).  `items` is the
knowledge table in id order; `raw_semantic_matches` is what
`search_knowledge_semantic` returned for this query against the current
index state (see `search_knowledge_semantic`); `question_text` is the JSON
`question` field.  An empty/blank question is the 400 response; otherwise
the semantic and keyword tiers are computed, merged, ranked, and the top
candidate is accepted against the final threshold. -/
def api_knowledge_query (cfg : QueryConfig) (items : List KItem)
    (raw_semantic_matches : List SemMatch) (question_text : String) :
    QueryResult :=
  if isBlank question_text then QueryResult.validationError
  else
    let sem := semantic_matches_details cfg items raw_semantic_matches
    let kw := keyword_matches_details cfg items question_text
    let fc := final_candidates kw sem
    if fc.isEmpty then QueryResult.notFoundEmpty
    else
      match ranked_results fc with
      | [] => QueryResult.notFoundEmpty
      | best :: _ =>
          if cfg.final_result_threshold ≤ best.score then
            QueryResult.found best.id best.question best.answer best.score
              best.match_type
          else QueryResult.belowThreshold best.score best.match_type

/-- Sample fixture: a knowledge item. -/
def sampleKItem : KItem :=
  { id := 1, question := "What", answer := "A", created_at := 0,
    updated_at := 0 }

/-! ### Theorems settling the claims, with their helper lemmas -/

/-- Replacing, in a row list, every row of a given id by a row `req'` that
carries that id commutes with looking the id up: the lookup afterwards
returns `req'`, provided the id was present before. -/
theorem find?_replace_id (l : List HelpReq) (request_id : Nat) (req' : HelpReq)
    (hid : req'.id = request_id)
    (h : (l.find? (fun r => r.id = request_id)).isSome) :
    (l.map (fun r => if r.id = request_id then req' else r)).find?
        (fun r => r.id = request_id) = some req' := by
  induction l with
  | nil => simp at h
  | cons a l ih =>
      by_cases ha : a.id = request_id
      · simp [List.find?_cons, ha, hid]
      · simp only [List.map_cons, if_neg ha, List.find?_cons, decide_eq_true_eq, ha]
        simp only [List.find?_cons, decide_eq_true_eq, ha, if_false] at h
        simpa [ha] using ih h

/-- C1, counterexample: the claim says `markUnresolved` on a request whose
status is already terminal ("resolved") fails with InvalidState and leaves
the row unchanged.  On the code, the call succeeds and moves the row out of
the terminal state: it returns the request with status overwritten to
"unresolved" (answer and resolved_at kept). -/
theorem mark_request_unresolved_exits_terminal_cex :
    (mark_request_unresolved { requests := [sampleResolvedReq], knowledge := [] } 1).2
      = some { sampleResolvedReq with status := "unresolved" }
    ∧ ({ sampleResolvedReq with status := "unresolved" } : HelpReq).status
        ≠ sampleResolvedReq.status := by
  constructor
  · rfl
  · decide

/-- C1 (amended): `resolve_request` and `mark_request_unresolved` never check
the current status.  On any existing request — in particular one already in
a terminal state — `resolve_request` succeeds and overwrites status to
"resolved" together with answer and resolved_at, and
`mark_request_unresolved` succeeds and overwrites status to "unresolved";
only an unknown id fails (returns none). -/
theorem resolve_and_mark_unresolved_overwrite_any_status
    (st : Store) (request_id : Nat) (answer : String) (now : Int)
    (req : HelpReq)
    (hfind : st.requests.find? (fun r => r.id = request_id) = some req)
    (_hterm : req.status ≠ "pending") :
    (resolve_request st request_id answer now false).2
        = some { req with status := "resolved", answer := some answer,
                          resolved_at := some now }
    ∧ (mark_request_unresolved st request_id).2
        = some { req with status := "unresolved" } := by
  unfold resolve_request mark_request_unresolved
  rw [hfind]
  exact ⟨rfl, rfl⟩

/-- Witness for C1's amended theorem at a concrete store holding one
already-resolved request. -/
theorem resolve_and_mark_unresolved_overwrite_any_status_witness :
    (([sampleResolvedReq].find? (fun r => r.id = 1) = some sampleResolvedReq)
      ∧ sampleResolvedReq.status ≠ "pending")
    ∧ ((resolve_request { requests := [sampleResolvedReq], knowledge := [] } 1 "new" 9 false).2
          = some { sampleResolvedReq with status := "resolved", answer := some "new",
                                          resolved_at := some 9 }
        ∧ (mark_request_unresolved { requests := [sampleResolvedReq], knowledge := [] } 1).2
          = some { sampleResolvedReq with status := "unresolved" }) :=
  ⟨⟨by decide, by decide⟩,
    resolve_and_mark_unresolved_overwrite_any_status
      { requests := [sampleResolvedReq], knowledge := [] } 1 "new" 9
      sampleResolvedReq (by decide) (by decide)⟩

/-- C3, counterexample: starting from a pending request and an empty
knowledge store, the execution of `resolve_request` in which the
knowledge-base commit fails ends with the status transition committed
("resolved") while the knowledge upsert was not applied — exactly the
half-applied state the claim says can never occur. -/
theorem resolve_kb_failure_half_applied_cex :
    ((resolve_request { requests := [samplePendingReq], knowledge := [] }
        1 "A" 10 true).1.requests.map (·.status) = ["resolved"])
    ∧ (resolve_request { requests := [samplePendingReq], knowledge := [] }
        1 "A" 10 true).1.knowledge = [] := by
  constructor
  · rfl
  · rfl

/-- C3 (amended): `resolve_request` is not atomic.  The status transition is
committed before the knowledge upsert is attempted, so in the execution
where persisting the upsert fails, the request ends with status "resolved"
(never reverted to "pending") while the persistent knowledge store is left
unchanged. -/
theorem resolve_commits_transition_despite_kb_failure
    (st : Store) (request_id : Nat) (answer : String) (now : Int)
    (req : HelpReq)
    (hfind : st.requests.find? (fun r => r.id = request_id) = some req) :
    ((resolve_request st request_id answer now true).1.requests.find?
        (fun r => r.id = request_id))
      = some { req with status := "resolved", answer := some answer,
                        resolved_at := some now }
    ∧ (resolve_request st request_id answer now true).1.knowledge
        = st.knowledge := by
  have hid : req.id = request_id := by
    have := List.find?_some hfind
    simpa using this
  unfold resolve_request
  rw [hfind]
  constructor
  · exact find?_replace_id st.requests request_id _ hid (by rw [hfind]; rfl)
  · simp [add_to_knowledge_base]

/-- Witness for C3's amended theorem at a concrete pending request. -/
theorem resolve_commits_transition_despite_kb_failure_witness :
    ([samplePendingReq].find? (fun r => r.id = 1) = some samplePendingReq)
    ∧ (((resolve_request { requests := [samplePendingReq], knowledge := [] }
          1 "A" 10 true).1.requests.find? (fun r => r.id = 1))
        = some { samplePendingReq with status := "resolved", answer := some "A",
                                       resolved_at := some 10 }
      ∧ (resolve_request { requests := [samplePendingReq], knowledge := [] }
          1 "A" 10 true).1.knowledge = []) :=
  ⟨by decide,
    resolve_commits_transition_despite_kb_failure
      { requests := [samplePendingReq], knowledge := [] } 1 "A" 10
      samplePendingReq (by decide)⟩

/-- `filterMap` over a list all of whose elements are mapped to `some`
keeps the length. -/
theorem length_filterMap_of_all_isSome {α β : Type} (f : α → Option β)
    (l : List α) (h : ∀ a ∈ l, (f a).isSome) :
    (l.filterMap f).length = l.length := by
  induction l with
  | nil => rfl
  | cons a l ih =>
      have ha := h a (List.mem_cons_self a l)
      cases hfa : f a with
      | none => rw [hfa] at ha; simp at ha
      | some b =>
          simp only [List.filterMap_cons, hfa, List.length_cons]
          rw [ih (fun x hx => h x (List.mem_cons_of_mem a hx))]

/-- C2, counterexample: with an index of one vector active (globals
`⟨some ⟨1⟩, [7]⟩`), a forced rebuild over the lone knowledge item that fails
during embedding does not leave that index in place: the globals come out
cleared (`faiss_index = none`), and a subsequent search returns nothing
instead of using the previous index. -/
theorem rebuild_failure_clears_previous_index_cex :
    (build_or_load_faiss_index ⟨some ⟨1⟩, [7]⟩ [(7, some "q")] none true false
        RebuildFailure.embedFails).faiss_index = none
    ∧ search_knowledge_semantic
        (build_or_load_faiss_index ⟨some ⟨1⟩, [7]⟩ [(7, some "q")] none true false
          RebuildFailure.embedFails) true [(0, 0)] = []
    ∧ (⟨some ⟨1⟩, [7]⟩ : IndexGlobals).faiss_index ≠ none := by
  refine ⟨rfl, by decide, by decide⟩

/-- C2 (amended): a failure part-way through a forced rebuild (embedding or
persistence raising) does not keep the previously active index: the
exception handler clears the globals entirely (`faiss_index = None`, empty
id list), and every subsequent semantic search fails soft to the empty
list. -/
theorem rebuild_failure_clears_index_and_search_empty
    (g : IndexGlobals) (items : List (Nat × Option String))
    (load_fails : Bool) (failure : RebuildFailure) (embed_ok : Bool)
    (faiss_results : List (Int × ℚ))
    (hf : failure ≠ RebuildFailure.noFailure) :
    build_or_load_faiss_index g items none true load_fails failure
      = { faiss_index := none, knowledge_item_ids_for_faiss := [] }
    ∧ search_knowledge_semantic
        (build_or_load_faiss_index g items none true load_fails failure)
        embed_ok faiss_results = [] := by
  have hmain :
      build_or_load_faiss_index g items none true load_fails failure
        = { faiss_index := none, knowledge_item_ids_for_faiss := [] } := by
    cases failure with
    | noFailure => exact absurd rfl hf
    | embedFails =>
        simp only [build_or_load_faiss_index, rebuild_faiss_index]
        split <;> simp
    | persistFails =>
        simp only [build_or_load_faiss_index, rebuild_faiss_index]
        split <;> simp
  refine ⟨hmain, ?_⟩
  rw [hmain]
  simp [search_knowledge_semantic]

/-- Witness for C2's amended theorem at a concrete failed rebuild. -/
theorem rebuild_failure_clears_index_and_search_empty_witness :
    (RebuildFailure.embedFails ≠ RebuildFailure.noFailure)
    ∧ (build_or_load_faiss_index ⟨some ⟨1⟩, [7]⟩ [(7, some "q")] none true false
          RebuildFailure.embedFails
        = { faiss_index := none, knowledge_item_ids_for_faiss := [] }
      ∧ search_knowledge_semantic
          (build_or_load_faiss_index ⟨some ⟨1⟩, [7]⟩ [(7, some "q")] none true false
            RebuildFailure.embedFails) true [(0, 0)] = []) :=
  ⟨by decide,
    rebuild_failure_clears_index_and_search_empty ⟨some ⟨1⟩, [7]⟩
      [(7, some "q")] false RebuildFailure.embedFails true [(0, 0)] (by decide)⟩

/-- C4, counterexample: a successful forced rebuild over two knowledge items
of which one has a non-string question produces an index that is active for
search (one vector) while the id-mapping list has two entries — the vector
count does not equal the id-list length. -/
theorem rebuild_invalid_question_count_mismatch_cex :
    build_or_load_faiss_index ⟨none, []⟩ [(1, some "a"), (2, none)] none true
        false RebuildFailure.noFailure
      = { faiss_index := some { ntotal := 1 },
          knowledge_item_ids_for_faiss := [1, 2] }
    ∧ ({ ntotal := 1 } : FaissIndex).ntotal ≠ 0
    ∧ ({ ntotal := 1 } : FaissIndex).ntotal ≠ ([1, 2] : List Nat).length := by
  refine ⟨rfl, ?_, ?_⟩ <;> decide

/-- C4 (amended): the vector-count/id-list-length equality holds after every
successful rebuild over items whose questions are all valid strings; when
some question is not a valid string the invalid entries are dropped from the
embedding batch but kept in the id list, so the counts diverge (see the
counterexample). -/
theorem rebuild_all_valid_count_eq_ids_length
    (g : IndexGlobals) (items : List (Nat × Option String))
    (idx : FaissIndex)
    (hall : ∀ p ∈ items, (p.2).isSome)
    (hidx : (build_or_load_faiss_index g items none true false
        RebuildFailure.noFailure).faiss_index = some idx) :
    idx.ntotal
      = (build_or_load_faiss_index g items none true false
          RebuildFailure.noFailure).knowledge_item_ids_for_faiss.length := by
  have hlen : ((items.map (·.2)).filterMap id).length = items.length := by
    rw [List.filterMap_map]
    exact length_filterMap_of_all_isSome _ items hall
  cases items with
  | nil =>
      simp [build_or_load_faiss_index, rebuild_faiss_index] at hidx
  | cons a l =>
      simp only [build_or_load_faiss_index, rebuild_faiss_index,
        List.isEmpty_cons] at hidx ⊢
      have hne : ¬ (((a :: l).map (·.2)).filterMap id).isEmpty = true := by
        rw [List.isEmpty_iff_length_eq_zero, hlen]
        simp
      simp only [if_neg hne, Bool.false_eq_true, if_false] at hidx ⊢
      simp only [Option.some.injEq] at hidx
      rw [← hidx]
      simpa using hlen

/-- Witness for C4's amended theorem on a rebuild over two valid items. -/
theorem rebuild_all_valid_count_eq_ids_length_witness :
    ((∀ p ∈ [((1 : Nat), some "a"), (2, some "b")], (p.2).isSome)
      ∧ (build_or_load_faiss_index ⟨none, []⟩ [(1, some "a"), (2, some "b")]
          none true false RebuildFailure.noFailure).faiss_index
        = some { ntotal := 2 })
    ∧ ({ ntotal := 2 } : FaissIndex).ntotal
        = (build_or_load_faiss_index ⟨none, []⟩ [(1, some "a"), (2, some "b")]
            none true false RebuildFailure.noFailure).knowledge_item_ids_for_faiss.length :=
  ⟨⟨by decide, by decide⟩,
    rebuild_all_valid_count_eq_ids_length ⟨none, []⟩
      [(1, some "a"), (2, some "b")] { ntotal := 2 } (by decide) (by decide)⟩

/-- C6: a failure-free sweep transitions to "unresolved" exactly the pending
requests created strictly before `now - timeout_minutes`, and leaves every
other request — including all resolved and unresolved ones — untouched.  In
particular a pending request created at T with a 30-minute maxAge is
unresolved by a sweep at T+31 (T < (T+31)-30) and untouched by a sweep at
T+10 (¬ T < (T+10)-30). -/
theorem check_request_timeouts_job_transitions_exactly_old_pending
    (requests : List HelpReq) (now timeout_minutes : Int) :
    check_request_timeouts_job requests now timeout_minutes none
      = requests.map (fun r =>
          if r.status = "pending" ∧ r.created_at < now - timeout_minutes then
            { r with status := "unresolved" }
          else r) := by
  have hmap : ∀ (l : List HelpReq),
      (∀ r ∈ l, ¬(r.status = "pending" ∧ r.created_at < now - timeout_minutes)) →
      l.map (fun r =>
        if r.status = "pending" ∧ r.created_at < now - timeout_minutes then
          { r with status := "unresolved" }
        else r) = l := by
    intro l
    induction l with
    | nil => intro _; rfl
    | cons a t ih =>
        intro hl
        rw [List.map_cons, if_neg (hl a (List.mem_cons_self a t)),
          ih (fun x hx => hl x (List.mem_cons_of_mem a hx))]
  by_cases h : (timed_out_of requests now timeout_minutes).isEmpty = true
  · have h' : ∀ r ∈ requests,
        ¬(r.status = "pending" ∧ r.created_at < now - timeout_minutes) := by
      intro r hr hc
      have hemp := List.isEmpty_iff.mp h
      have : r ∈ ([] : List HelpReq) := by
        rw [← hemp]
        exact List.mem_filter.mpr ⟨hr, by simpa using hc⟩
      simp at this
    unfold check_request_timeouts_job
    simp only [h, if_true]
    exact (hmap requests h').symm
  · unfold check_request_timeouts_job
    simp [h]

/-- C6 concrete instance from the claim: a pending request created at T=0
with maxAge 30 minutes is transitioned by a sweep at T+31 and untouched by a
sweep at T+10, while a resolved request is never touched. -/
theorem check_request_timeouts_job_boundary_instance :
    (check_request_timeouts_job [samplePendingReq, sampleResolvedReq] 31 30
        none).map (·.status) = ["unresolved", "resolved"]
    ∧ check_request_timeouts_job [samplePendingReq, sampleResolvedReq] 10 30
        none = [samplePendingReq, sampleResolvedReq] := by
  refine ⟨by decide, by decide⟩

/-- C7, counterexample: two pending requests are both timed out at the
sweep, yet when the transition of the first one fails, the whole invocation
rolls back and the *second* timed-out request also stays "pending" — the
failure does abort the transitions of the remaining eligible requests,
contradicting continue-on-error. -/
theorem sweep_failure_rolls_back_batch_cex :
    check_request_timeouts_job
        [samplePendingReq, { samplePendingReq with id := 2 }] 31 30 (some 0)
      = [samplePendingReq, { samplePendingReq with id := 2 }]
    ∧ ({ samplePendingReq with id := 2 } : HelpReq).status = "pending"
    ∧ ({ samplePendingReq with id := 2 } : HelpReq)
        ∈ timed_out_of [samplePendingReq, { samplePendingReq with id := 2 }] 31 30 := by
  refine ⟨by decide, by decide, by decide⟩

/-- C7 (amended): the sweep is all-or-nothing per invocation, not
continue-on-error: a failure while transitioning any one timed-out request
lands in the single exception handler, whose rollback reverts the entire
batch — no request is transitioned in that invocation (they remain pending
for a later sweep). -/
theorem sweep_failure_aborts_whole_batch
    (requests : List HelpReq) (now timeout_minutes : Int) (i : Nat)
    (hi : i < (timed_out_of requests now timeout_minutes).length) :
    check_request_timeouts_job requests now timeout_minutes (some i)
      = requests := by
  unfold check_request_timeouts_job
  have hne : ¬(timed_out_of requests now timeout_minutes).isEmpty = true := by
    rw [List.isEmpty_iff_length_eq_zero]
    omega
  simp [hne, hi]

/-- Witness for C7's amended theorem with one timed-out request. -/
theorem sweep_failure_aborts_whole_batch_witness :
    (0 < (timed_out_of [samplePendingReq] 31 30).length)
    ∧ check_request_timeouts_job [samplePendingReq] 31 30 (some 0)
        = [samplePendingReq] :=
  ⟨by decide, sweep_failure_aborts_whole_batch [samplePendingReq] 31 30 0 (by decide)⟩

/-- C10: for every stored help request whose status is not "resolved", the
check-request API responds with `answer = null`, even when an answer value
is stored on the request; the stored answer is exposed only for status
"resolved". -/
theorem check_request_hides_answer_unless_resolved
    (requests : List HelpReq) (request_id : Nat) (r : HelpReq)
    (hfind : requests.find? (fun x => x.id = request_id) = some r)
    (hst : r.status ≠ "resolved") :
    api_check_request requests request_id = some (r.id, r.status, none) := by
  unfold api_check_request
  rw [hfind]
  simp [hst]

/-- Witness for C10 on a pending request that *does* carry a stored answer:
the response still hides it. -/
theorem check_request_hides_answer_unless_resolved_witness :
    (([{ samplePendingReq with answer := some "secret" }].find?
        (fun x => x.id = 1) = some { samplePendingReq with answer := some "secret" })
      ∧ ({ samplePendingReq with answer := some "secret" } : HelpReq).status ≠ "resolved")
    ∧ api_check_request [{ samplePendingReq with answer := some "secret" }] 1
        = some (1, "pending", none) :=
  ⟨⟨by decide, by decide⟩, by
    have := check_request_hides_answer_unless_resolved
      [{ samplePendingReq with answer := some "secret" }] 1
      { samplePendingReq with answer := some "secret" } (by decide) (by decide)
    simpa using this⟩

/-- Looking a key up after filtering that key out finds nothing. -/
theorem find?_filter_ne_none (m : List (String × String)) (k : String) :
    (m.filter (fun kv => kv.1 ≠ k)).find? (fun kv => kv.1 = k) = none := by
  induction m with
  | nil => rfl
  | cons a t ih =>
      by_cases ha : a.1 = k
      · simp [List.filter_cons, ha, ih]
      · simp [List.filter_cons, ha, List.find?_cons, ih]

/-- After `remove`, the binding for that request id is gone. -/
theorem get_session_for_request_remove (m : List (String × String))
    (request_id : Nat) :
    CallbackRegistry.get_session_for_request
      (CallbackRegistry.remove m request_id) request_id = none := by
  unfold CallbackRegistry.remove CallbackRegistry.get_session_for_request
  by_cases h : m.any (fun kv => kv.1 = toString request_id)
  · rw [if_pos h, find?_filter_ne_none]
    rfl
  · rw [if_neg h]
    have : m.find? (fun kv => kv.1 = toString request_id) = none := by
      rw [List.find?_eq_none]
      intro kv hkv hk
      exact h (List.any_eq_true.mpr ⟨kv, hkv, hk⟩)
    rw [this]
    rfl

/-- C8: the deliver handler removes the callback binding only after the
delivery callback succeeds (any non-200 outcome leaves the registry
untouched); after a successful delivery the binding is gone, so a second
deliver call for the same request id finds no binding and fails with 404;
and no outcome of the handler — including a failed delivery (500) and the
second call's 404 — carries a status the webhook sender retries
(`status_forcelist=[502, 503, 504]`). -/
theorem webhook_delivery_at_most_once
    (m : List (String × String)) (active_sessions : List String)
    (request_id : Nat) (ans ans2 : String) (ok ok2 : Bool)
    (h1 : ans ≠ "") (h2 : ans2 ≠ "") :
    ((handle_resolved_webhook m active_sessions request_id (some ans) ok).2 ≠ 200 →
      (handle_resolved_webhook m active_sessions request_id (some ans) ok).1 = m)
    ∧ ((handle_resolved_webhook m active_sessions request_id (some ans) ok).2 = 200 →
        CallbackRegistry.get_session_for_request
          (handle_resolved_webhook m active_sessions request_id (some ans) ok).1
          request_id = none
        ∧ handle_resolved_webhook
            (handle_resolved_webhook m active_sessions request_id (some ans) ok).1
            active_sessions request_id (some ans2) ok2
          = ((handle_resolved_webhook m active_sessions request_id (some ans) ok).1,
             404))
    ∧ webhook_retryable_status
        (handle_resolved_webhook m active_sessions request_id (some ans) ok).2
        = false := by
  cases hg : CallbackRegistry.get_session_for_request m request_id with
  | none =>
      simp only [handle_resolved_webhook, if_neg h1, hg]
      simp [webhook_retryable_status]
  | some agent_id =>
      by_cases hs : agent_id ∈ active_sessions
      · cases ok with
        | false =>
            simp only [handle_resolved_webhook, if_neg h1, hg, if_pos hs,
              Bool.false_eq_true, if_false]
            simp [webhook_retryable_status]
        | true =>
            simp only [handle_resolved_webhook, if_neg h1, hg, if_pos hs, if_true]
            refine ⟨fun hc => absurd rfl hc, fun _ => ?_, by decide⟩
            refine ⟨get_session_for_request_remove m request_id, ?_⟩
            simp only [handle_resolved_webhook, if_neg h2,
              get_session_for_request_remove m request_id]
      · simp only [handle_resolved_webhook, if_neg h1, hg, if_neg hs]
        simp [webhook_retryable_status]

/-- Witness for C8 at the concrete run of the spec's own example: binding
17 → "sessionA", the session live, a first successful delivery and a
second attempt. -/
theorem webhook_delivery_at_most_once_witness :
    (("answer" ≠ "") ∧ ("again" ≠ ""))
    ∧ (((handle_resolved_webhook [("17", "sessionA")] ["sessionA"] 17
          (some "answer") true).2 ≠ 200 →
        (handle_resolved_webhook [("17", "sessionA")] ["sessionA"] 17
          (some "answer") true).1 = [("17", "sessionA")])
      ∧ ((handle_resolved_webhook [("17", "sessionA")] ["sessionA"] 17
            (some "answer") true).2 = 200 →
          CallbackRegistry.get_session_for_request
            (handle_resolved_webhook [("17", "sessionA")] ["sessionA"] 17
              (some "answer") true).1 17 = none
          ∧ handle_resolved_webhook
              (handle_resolved_webhook [("17", "sessionA")] ["sessionA"] 17
                (some "answer") true).1
              ["sessionA"] 17 (some "again") true
            = ((handle_resolved_webhook [("17", "sessionA")] ["sessionA"] 17
                (some "answer") true).1, 404))
      ∧ webhook_retryable_status
          (handle_resolved_webhook [("17", "sessionA")] ["sessionA"] 17
            (some "answer") true).2 = false) :=
  ⟨⟨by decide, by decide⟩,
    webhook_delivery_at_most_once [("17", "sessionA")] ["sessionA"] 17
      "answer" "again" true true (by decide) (by decide)⟩

/-- Case-insensitively equal strings always `LIKE`-match: literal pattern
characters compare as equal, `_` trivially matches its counterpart, and a
literal `%` in the pattern faces a `%` in the string, which the wildcard can
consume. -/
theorem likeMatch_of_lower_eq (p s : List Char)
    (h : p.map Char.toLower = s.map Char.toLower) : likeMatch p s = true := by
  induction p generalizing s with
  | nil =>
      have : s = [] := by
        cases s with
        | nil => rfl
        | cons c ss => simp at h
      rw [this]
      rfl
  | cons a ps ih =>
      cases s with
      | nil => simp at h
      | cons c ss =>
          simp only [List.map_cons, List.cons.injEq] at h
          obtain ⟨ha, hps⟩ := h
          by_cases hp : a = '%'
          · subst hp
            have hstep : likeMatch ('%' :: ps) (c :: ss)
                = (c :: ss).tails.any (fun t => likeMatch ps t) := by
              simp [likeMatch]
            rw [hstep, List.any_eq_true]
            exact ⟨ss, (List.mem_tails _ _).mpr (List.suffix_cons c ss),
              ih ss hps⟩
          · simp only [likeMatch, if_neg hp]
            rw [Bool.and_eq_true, Bool.or_eq_true]
            exact ⟨Or.inr (decide_eq_true ha), ih ss hps⟩

/-- Every candidate the semantic tier produces carries the tag
"semantic". -/
theorem semantic_matches_details_all (cfg : QueryConfig) (items : List KItem)
    (raw : List SemMatch) :
    ∀ c ∈ semantic_matches_details cfg items raw,
      c.match_type = "semantic" := by
  intro c hc
  unfold semantic_matches_details at hc
  rw [List.mem_filterMap] at hc
  obtain ⟨m, _, hf⟩ := hc
  split at hf
  · rw [Option.map_eq_some'] at hf
    obtain ⟨it, _, hc'⟩ := hf
    rw [← hc']
  · exact absurd hf (by simp)

/-- Inserting a semantic-tier candidate into a merged dict headed by an
exact candidate keeps the exact candidate at its position with its fields,
and introduces no exact tag elsewhere. -/
theorem mergeInsert_keeps_exact_head (k : Nat) (c : Candidate)
    (hc : c.match_type = "exact_keyword") (rest : List (Nat × Candidate))
    (hrest : ∀ kv ∈ rest, kv.2.match_type ≠ "exact_keyword")
    (res : Candidate) (hres : res.match_type = "semantic") :
    ∃ rest2, mergeInsert ((k, c) :: rest) res = (k, c) :: rest2
      ∧ ∀ kv ∈ rest2, kv.2.match_type ≠ "exact_keyword" := by
  have hres' : (res.match_type = "exact_keyword") = False := by
    rw [hres]
    simp
  have hresne : res.match_type ≠ "exact_keyword" := by
    rw [hres]
    simp
  unfold mergeInsert
  by_cases hany : ((k, c) :: rest).any (fun kv => kv.1 = res.id) = true
  · rw [if_pos hany]
    refine ⟨rest.map (fun kv =>
      if kv.1 = res.id then
        (kv.1,
          if res.match_type = "exact_keyword" then res
          else if kv.2.match_type ≠ "exact_keyword" ∧ kv.2.score < res.score then res
          else kv.2)
      else kv), ?_, ?_⟩
    · rw [List.map_cons]
      congr 1
      by_cases hk : k = res.id
      · rw [if_pos hk]
        simp only [hres', if_false]
        rw [if_neg (fun hcontra => hcontra.1 hc)]
      · rw [if_neg hk]
    · intro kv hkv
      rw [List.mem_map] at hkv
      obtain ⟨kv0, hkv0, heq⟩ := hkv
      by_cases hk0 : kv0.1 = res.id
      · rw [if_pos hk0] at heq
        simp only [hres', if_false] at heq
        by_cases hrepl : kv0.2.match_type ≠ "exact_keyword" ∧ kv0.2.score < res.score
        · rw [if_pos hrepl] at heq
          rw [← heq]
          exact hresne
        · rw [if_neg hrepl] at heq
          rw [← heq]
          exact hrest kv0 hkv0
      · rw [if_neg hk0] at heq
        rw [← heq]
        exact hrest kv0 hkv0
  · rw [if_neg hany]
    refine ⟨rest ++ [(res.id, res)], rfl, ?_⟩
    intro kv hkv
    rcases List.mem_append.mp hkv with h | h
    · exact hrest kv h
    · have : kv = (res.id, res) := by simpa using h
      rw [this]
      exact hresne

/-- Folding the whole semantic tier into a merged dict headed by an exact
candidate keeps that candidate first and keeps every other entry
non-exact. -/
theorem foldl_mergeInsert_all_semantic (sem : List Candidate)
    (hsem : ∀ x ∈ sem, x.match_type = "semantic") (k : Nat) (c : Candidate)
    (hc : c.match_type = "exact_keyword") (rest : List (Nat × Candidate))
    (hrest : ∀ kv ∈ rest, kv.2.match_type ≠ "exact_keyword") :
    ∃ rest2, sem.foldl mergeInsert ((k, c) :: rest) = (k, c) :: rest2
      ∧ ∀ kv ∈ rest2, kv.2.match_type ≠ "exact_keyword" := by
  induction sem generalizing rest with
  | nil => exact ⟨rest, rfl, hrest⟩
  | cons x sem ih =>
      obtain ⟨rest2, heq, hall⟩ :=
        mergeInsert_keeps_exact_head k c hc rest hrest x
          (hsem x (List.mem_cons_self x sem))
      obtain ⟨rest3, heq3, hall3⟩ :=
        ih (fun y hy => hsem y (List.mem_cons_of_mem x hy)) rest2 hall
      exact ⟨rest3, by rw [List.foldl_cons, heq, heq3], hall3⟩

/-- Membership through `orderedInsertDesc`. -/
theorem mem_orderedInsertDesc {α : Type} (ge : α → α → Bool) (a x : α)
    (l : List α) (h : x ∈ orderedInsertDesc ge a l) : x = a ∨ x ∈ l := by
  induction l with
  | nil => simpa [orderedInsertDesc] using h
  | cons b t ih =>
      simp only [orderedInsertDesc] at h
      split at h
      · exact (List.mem_cons.mp h).imp id id
      · rcases List.mem_cons.mp h with h | h
        · exact Or.inr (List.mem_cons.mpr (Or.inl h))
        · rcases ih h with h | h
          · exact Or.inl h
          · exact Or.inr (List.mem_cons_of_mem b h)

/-- Membership through `insertionSortDesc`. -/
theorem mem_insertionSortDesc {α : Type} (ge : α → α → Bool) (x : α)
    (l : List α) (h : x ∈ insertionSortDesc ge l) : x ∈ l := by
  induction l with
  | nil => simp [insertionSortDesc] at h
  | cons b t ih =>
      rcases mem_orderedInsertDesc ge b x _ h with h | h
      · rw [h]
        exact List.mem_cons_self b t
      · exact List.mem_cons_of_mem b (ih h)

/-- An element ≥ everything in the list is inserted at the front. -/
theorem orderedInsertDesc_eq_cons {α : Type} (ge : α → α → Bool) (a : α)
    (l : List α) (h : ∀ y ∈ l, ge a y = true) :
    orderedInsertDesc ge a l = a :: l := by
  cases l with
  | nil => rfl
  | cons b t => simp [orderedInsertDesc, h b (List.mem_cons_self b t)]

/-- A head ≥ everything in the tail stays at the front of the stable
descending sort. -/
theorem insertionSortDesc_cons_top {α : Type} (ge : α → α → Bool) (a : α)
    (l : List α) (h : ∀ y ∈ l, ge a y = true) :
    insertionSortDesc ge (a :: l) = a :: insertionSortDesc ge l := by
  show orderedInsertDesc ge a (insertionSortDesc ge l) = _
  exact orderedInsertDesc_eq_cons ge a _
    (fun y hy => h y (mem_insertionSortDesc ge y l hy))

/-- An exact candidate ranks at least as high as any non-exact one,
whatever their scores. -/
theorem rank_key_ge_exact (a b : Candidate)
    (ha : a.match_type = "exact_keyword")
    (hb : b.match_type ≠ "exact_keyword") : rank_key_ge a b = true := by
  unfold rank_key_ge
  simp [ha, hb]

/-- C5, counterexample: the claim names the returned match type 'exact';
the code's exact tier tags and returns the literal string "exact_keyword"
(`app.py` line 392), which is what the API's `match_type` field carries. -/
theorem exact_match_tag_is_exact_keyword_cex :
    api_knowledge_query defaultQueryConfig
        [{ id := 1, question := "What", answer := "A",
           created_at := 0, updated_at := 0 }] [] "what"
      = QueryResult.found 1 "What" "A" 1 "exact_keyword"
    ∧ ("exact_keyword" : String) ≠ "exact" := ⟨by decide, by decide⟩

/-- C5 (amended): for any stored knowledge item, a non-blank hybrid query
whose text equals the stored question case-insensitively returns Found with
score 1.0 and matchType "exact_keyword" (not "exact"), for an item the
exact tier selected; the exact candidate outranks every semantic or keyword
candidate referring to a different item regardless of their scores, which
is why the Found result is the exact one. -/
theorem exact_query_found_exact_keyword
    (items : List KItem) (raw : List SemMatch) (q : String)
    (hq : isBlank q = false)
    (it0 : KItem) (hmem : it0 ∈ items)
    (hlow : lowerChars it0.question = lowerChars q) :
    ∃ it ∈ items,
      api_knowledge_query defaultQueryConfig items raw q
        = QueryResult.found it.id it.question it.answer 1 "exact_keyword" := by
  have hlike0 : likeMatch q.toList it0.question.toList = true :=
    likeMatch_of_lower_eq _ _ (by simpa [lowerChars] using hlow.symm)
  have hfs : (items.find?
      (fun it => likeMatch q.toList it.question.toList)).isSome := by
    rw [List.find?_isSome]
    exact ⟨it0, hmem, hlike0⟩
  obtain ⟨it, hit⟩ := Option.isSome_iff_exists.mp hfs
  have hitmem : it ∈ items := List.mem_of_find?_eq_some hit
  refine ⟨it, hitmem, ?_⟩
  set c : Candidate :=
    { id := it.id, question := it.question, answer := it.answer,
      score := 1, match_type := "exact_keyword" } with hcdef
  have hkw : keyword_matches_details defaultQueryConfig items q = [c] := by
    unfold keyword_matches_details
    rw [hit]
  obtain ⟨rest2, hfc, hall⟩ :=
    foldl_mergeInsert_all_semantic
      (semantic_matches_details defaultQueryConfig items raw)
      (semantic_matches_details_all defaultQueryConfig items raw)
      c.id c rfl [] (by simp)
  have hfc' : final_candidates [c]
      (semantic_matches_details defaultQueryConfig items raw)
        = (c.id, c) :: rest2 := by
    unfold final_candidates
    rw [List.singleton_append, List.foldl_cons]
    exact hfc
  have hrank : ranked_results ((c.id, c) :: rest2)
      = c :: insertionSortDesc rank_key_ge (rest2.map (·.2)) := by
    unfold ranked_results
    rw [List.map_cons]
    apply insertionSortDesc_cons_top
    intro y hy
    rw [List.mem_map] at hy
    obtain ⟨kv, hkv, hkv2⟩ := hy
    rw [← hkv2]
    exact rank_key_ge_exact c kv.2 rfl (hall kv hkv)
  unfold api_knowledge_query
  simp only [hq, Bool.false_eq_true, if_false]
  rw [hkw, hfc', hrank]
  simp only [List.isEmpty_cons, Bool.false_eq_true, if_false]
  rw [if_pos (by decide : defaultQueryConfig.final_result_threshold ≤ (1 : ℚ))]

/-- Witness for C5's amended theorem: querying "what" against stored
question "What". -/
theorem exact_query_found_exact_keyword_witness :
    (isBlank "what" = false
      ∧ sampleKItem ∈ [sampleKItem]
      ∧ lowerChars sampleKItem.question = lowerChars "what")
    ∧ ∃ it ∈ [sampleKItem],
        api_knowledge_query defaultQueryConfig [sampleKItem] [] "what"
          = QueryResult.found it.id it.question it.answer 1 "exact_keyword" :=
  ⟨⟨by decide, by decide, by decide⟩,
    exact_query_found_exact_keyword [sampleKItem] [] "what" (by decide)
      sampleKItem (by decide) (by decide)⟩

/-- C9: the hybrid query is deterministic — it is a pure function of the
query text, the stored knowledge items, and the semantic-tier output
derived from the index state, so equal inputs give an identical result
(found/not-found, id, answer, score and match type). -/
theorem api_knowledge_query_deterministic
    (cfg : QueryConfig) (items items2 : List KItem)
    (raw raw2 : List SemMatch) (q q2 : String)
    (hitems : items = items2) (hraw : raw = raw2) (hq : q = q2) :
    api_knowledge_query cfg items raw q
      = api_knowledge_query cfg items2 raw2 q2 := by
  subst hitems
  subst hraw
  subst hq
  rfl

/-- Witness for C9 at a concrete repeated query. -/
theorem api_knowledge_query_deterministic_witness :
    (([sampleKItem] = [sampleKItem])
      ∧ ([({ id := 1, score := 1 } : SemMatch)]
          = [({ id := 1, score := 1 } : SemMatch)])
      ∧ ("what" : String) = "what")
    ∧ api_knowledge_query defaultQueryConfig [sampleKItem]
        [{ id := 1, score := 1 }] "what"
      = api_knowledge_query defaultQueryConfig [sampleKItem]
        [{ id := 1, score := 1 }] "what" :=
  ⟨⟨rfl, rfl, rfl⟩,
    api_knowledge_query_deterministic defaultQueryConfig [sampleKItem]
      [sampleKItem] [{ id := 1, score := 1 }] [{ id := 1, score := 1 }]
      "what" "what" rfl rfl rfl⟩

end Supervisor
